import Mathlib

/-
  Shallow embedding of the analytics core of the ElectricityPriceCalculator
  repository (services/mockData.ts = generatePriceFromWeather and its helpers,
  services/mlUtils.ts = performTimeSeriesCV / computeFoldMetrics /
  computeAggregateMetrics / predictHorizon).

  Embedding conventions:
  * JavaScript numbers are modelled as exact rationals, extended with a NaN
    element (`JsNum`) where NaN can actually arise in the code (undefined
    property reads propagating through arithmetic).  IEEE-754 rounding error
    and infinities are not modelled; every division performed by the embedded
    code is guarded by a nonzero denominator in the source.
  * A timestamp input (a JS string fed to `new Date`) is modelled by
    `TimeInput`: either it parses to an epoch-millisecond integer or it is an
    unparsable string (identified by a tag; two equal tags stand for the same
    raw string).  Hour-truncated ISO keys (`toHourIso` output reparsed, the
    `prevHour` / `prev24Hour` keys, `Map` keys) are represented by the integer
    hour index `floor(ms / 3600000)`; two such ISO strings are equal exactly
    when their hour indices are equal, and an unparsable raw string is never
    equal to a well-formed hour ISO string.
  * A thrown JS exception is modelled by `Except.error`; the engine throws a
    RangeError (`Invalid time value`) when it calls `toISOString` on an
    invalid date, which happens exactly when a weather sample's time string
    does not parse.
  * JS `Map` objects used only through get/set are modelled as functions to
    `Option`, with set = pointwise update (last write wins, as for `Map.set`).
  * `array.sort((a, b) => ka - kb)` (a stable sort) is modelled by insertion
    sort with the boolean comparator `jsSortLe`; a comparator result of NaN is
    treated as 0 (equal), as evaluated by the ECMAScript SortCompare.
-/

/-- A JS number extended with NaN.  `num q` is the exact rational value. -/
inductive JsNum where
  | num (q : ℚ)
  | nan
deriving DecidableEq, Repr

namespace JsNum

/-- JS addition: NaN absorbs. -/
def add : JsNum → JsNum → JsNum
  | num a, num b => num (a + b)
  | _, _ => nan

/-- JS subtraction: NaN absorbs. -/
def sub : JsNum → JsNum → JsNum
  | num a, num b => num (a - b)
  | _, _ => nan

/-- JS multiplication: NaN absorbs.  (0 * NaN is NaN in JS, as here.) -/
def mul : JsNum → JsNum → JsNum
  | num a, num b => num (a * b)
  | _, _ => nan

instance : Add JsNum := ⟨add⟩
instance : Sub JsNum := ⟨sub⟩
instance : Mul JsNum := ⟨mul⟩

end JsNum

/-- `Math.abs`, NaN absorbing. -/
def jsAbs : JsNum → JsNum
  | .num a => .num |a|
  | .nan => .nan

/-- JS division.  NaN absorbs.  Division of rationals uses exact rational
division; the rational-by-zero case (JS would give ±Infinity) yields `num 0`
here, but every division in the embedded source is guarded by a nonzero
denominator (a positive length, or a variance tested against 0). -/
def jsDiv : JsNum → JsNum → JsNum
  | .num a, .num b => .num (a / b)
  | _, _ => .nan

/-- `Math.min(a, b)`: NaN if either argument is NaN. -/
def jsMin : JsNum → JsNum → JsNum
  | .num a, .num b => .num (min a b)
  | _, _ => .nan

/-- `Math.max(a, b)`: NaN if either argument is NaN. -/
def jsMax : JsNum → JsNum → JsNum
  | .num a, .num b => .num (max a b)
  | _, _ => .nan

/-- Exact rational square root, used to embed `Math.sqrt` on nonnegative
rationals.  It is exact whenever numerator and denominator are perfect
squares, which covers every square root the claims evaluate (all on perfect
squares); on other inputs it is a floor-based approximation of the
irrational float result. -/
def ratSqrt (q : ℚ) : ℚ :=
  ((Int.toNat q.num).sqrt : ℚ) / (q.den.sqrt : ℚ)

/-- `Math.sqrt`: NaN for NaN or negative input. -/
def jsSqrt : JsNum → JsNum
  | .num a => if a < 0 then .nan else .num (ratSqrt a)
  | .nan => .nan

/-- `parseFloat(x.toFixed(2))` on an exact rational: round to 2 decimal
places.  ECMAScript `toFixed` first strips the sign, then picks the integer
`n` with `n / 100` closest to `|x|`, ties to the larger `n`; so ties round
away from zero. -/
def round2 (x : ℚ) : ℚ :=
  if x < 0 then -((round ((-x) * 100) : ℤ) : ℚ) / 100
  else ((round (x * 100) : ℤ) : ℚ) / 100

/-- `parseFloat(x.toFixed(2))` lifted to JS numbers: `(NaN).toFixed(2)` is
the string `NaN` and `parseFloat` of it is NaN again. -/
def jsRound2 : JsNum → JsNum
  | .num a => .num (round2 a)
  | .nan => .nan

/-- JS `x || d` for a finite number `x` and default `d`: `x` is falsy exactly
when it is 0 (NaN cannot occur at the one use site, where `x` is a mean of
finite market prices). -/
def jsOr (x d : ℚ) : ℚ :=
  if x = 0 then d else x

/-- A JS timestamp input: either it parses (epoch milliseconds) or it is an
unparsable string, identified by a tag. -/
inductive TimeInput where
  | valid (ms : Int)
  | invalid (tag : Nat)
deriving DecidableEq, Repr

/-- `new Date(input).getTime()`: `some ms` for a parsable input, `none` (NaN)
otherwise. -/
def parseMs : TimeInput → Option Int
  | .valid ms => some ms
  | .invalid _ => none

/-- `toHourIso` (mockData.ts lines 5-12): parse, return `''` (here `none`) if
invalid, else truncate minutes/seconds/milliseconds in UTC and return the ISO
string of the top of the hour — represented by the integer hour index
`floor(ms / 3600000)` (floor division, matching `setUTCMinutes(0,0,0)` on
pre-1970 instants too). -/
def toHourIso (t : TimeInput) : Option Int :=
  (parseMs t).map (fun ms => Int.fdiv ms 3600000)

/-- `mean` (mockData.ts lines 14-17): 0 for an empty list, else the sum
(`reduce` with `+` from 0) divided by the length. -/
def mean (values : List ℚ) : ℚ :=
  if values.length = 0 then 0 else values.sum / (values.length : ℚ)

/-- FmiDataPoint (fmiService.ts): one weather sample. -/
structure FmiDataPoint where
  time : TimeInput
  temperature : ℚ
  isForecast : Bool
deriving DecidableEq, Repr

/-- SpotPricePoint (priceService.ts): one market price sample. -/
structure SpotPricePoint where
  timestamp : TimeInput
  price : ℚ
  isFuture : Bool
deriving DecidableEq, Repr

/-- PriceData (types.ts): one engine output record.  The timestamp of an
emitted record is always a well-formed hour ISO string (the engine throws
before emitting a record for an unparsable time), represented by its hour
index.  `actualPrice` is a finite number when present; `predictedPrice` can
be NaN (see `resolveWeights`). -/
structure PriceData where
  timestamp : Int
  actualPrice : Option ℚ
  predictedPrice : JsNum
  temperature : ℚ
  isFuture : Bool
deriving DecidableEq, Repr

/-- A historical training pair (mockData.ts lines 78-91): hour ISO key,
temperature, matched market price. -/
structure HistPair where
  timestamp : Int
  temperature : ℚ
  price : ℚ
deriving DecidableEq, Repr

/-- `buildHourlyProfile` (mockData.ts lines 19-32): group pair prices by UTC
hour of day of their hour-ISO timestamp and take the per-hour mean (mean of
the empty list, hence 0, for hours with no data).  The record with keys 0-23
is modelled as a function of the hour. -/
def buildHourlyProfile (pairs : List HistPair) : Int → ℚ :=
  fun hour => mean ((pairs.filter (fun p => p.timestamp % 24 = hour)).map (fun p => p.price))

/-- `estimateTemperatureBeta` (mockData.ts lines 34-57): least-squares slope
of price against heating demand, 0 for fewer than 2 pairs or zero variance,
clamped to [-2.5, 6].  The accumulation loop is written as sums. -/
def estimateTemperatureBeta (pairs : List HistPair) (comfortTemp : ℚ) : ℚ :=
  if pairs.length < 2 then 0
  else
    let demand := pairs.map (fun p => max 0 (comfortTemp - p.temperature))
    let prices := pairs.map (fun p => p.price)
    let demandMean := mean demand
    let priceMean := mean prices
    let covariance := ((demand.zip prices).map
      (fun dp => (dp.1 - demandMean) * (dp.2 - priceMean))).sum
    let variance := (demand.map (fun d => (d - demandMean) * (d - demandMean))).sum
    if variance = 0 then 0
    else max (-(5 / 2 : ℚ)) (min 6 (covariance / variance))

/-- The comparator of `weatherData.sort((a, b) => ta - tb)` (mockData.ts
lines 66-68) turned into a boolean "not after" relation: for two parsable
times, compare epoch milliseconds; if either time is unparsable the
comparator value is NaN, which ECMAScript SortCompare treats as 0 (equal). -/
def jsSortLe (a b : FmiDataPoint) : Bool :=
  match parseMs a.time, parseMs b.time with
  | some x, some y => x ≤ y
  | _, _ => true

/-- The comparator as a binary relation, for use with `List.insertionSort`. -/
def WLe (a b : FmiDataPoint) : Prop := jsSortLe a b = true

instance : DecidableRel WLe := fun a b => inferInstanceAs (Decidable (jsSortLe a b = true))

/-- The defensive sort of the weather input: a stable sort by parsed time.
(For a consistent comparator the stable sorted order is unique, so stable
insertion sort coincides with the engine's `Array.prototype.sort`.) -/
def jsSortWeather (l : List FmiDataPoint) : List FmiDataPoint :=
  List.insertionSort WLe l

/-- `marketPriceMap` (mockData.ts lines 70-76): an hour-ISO-keyed `Map` of
spot prices, skipping entries with unparsable timestamps (`hourIso` falsy);
the `Number.isFinite(point.price)` guard always holds for an exact rational.
`Map.set` overwrites, so later entries for the same hour win. -/
def marketPriceMap (spotPrices : List SpotPricePoint) : Int → Option ℚ :=
  spotPrices.foldl
    (fun m point =>
      match toHourIso point.timestamp with
      | some h => fun k => if k = h then some point.price else m k
      | none => m)
    (fun _ => none)

/-- `historicalPairs` (mockData.ts lines 78-91): non-forecast samples of the
sorted weather list whose hour has a market price. -/
def historicalPairs (sortedWeather : List FmiDataPoint) (mp : Int → Option ℚ) :
    List HistPair :=
  (sortedWeather.filter (fun obs => !obs.isForecast)).filterMap
    (fun obs =>
      match toHourIso obs.time with
      | some h => (mp h).map (fun actualPrice => ⟨h, obs.temperature, actualPrice⟩)
      | none => none)

/-- The comfort temperature constant (mockData.ts line 93). -/
def comfortTemp : ℚ := 15

/-- The mean of the historical-pair actual prices, before the `|| 30`
fallback (the quantity the specification calls "the arithmetic mean of the
historical-pair actual prices"). -/
def engineHistMean (sortedWeather : List FmiDataPoint) (spotPrices : List SpotPricePoint) : ℚ :=
  mean ((historicalPairs sortedWeather (marketPriceMap spotPrices)).map (fun p => p.price))

/-- `globalMean` (mockData.ts line 94): `mean(historical prices) || 30`.
The `||` fallback fires exactly when the mean is 0 — in particular, but not
only, when there are no historical pairs. -/
def engineGlobalMean (sortedWeather : List FmiDataPoint) (spotPrices : List SpotPricePoint) : ℚ :=
  jsOr (engineHistMean sortedWeather spotPrices) 30

/-- A per-model weight vector (mockData.ts lines 99-103). -/
structure Weights where
  lag1 : ℚ
  lag24 : ℚ
  hour : ℚ
  mean : ℚ
  temp : ℚ
deriving DecidableEq, Repr

/-- A weight vector as read back out of the JS lookup: each field is a JS
number, NaN when the looked-up object is not one of the three weight records
(reading `.lag1` off it gives `undefined`, which behaves as NaN in the
arithmetic of `predictedRaw`). -/
structure JsWeights where
  lag1 : JsNum
  lag24 : JsNum
  hour : JsNum
  mean : JsNum
  temp : JsNum
deriving DecidableEq, Repr

/-- Inject an actual weight record into `JsWeights`. -/
def Weights.toJs (w : Weights) : JsWeights :=
  ⟨.num w.lag1, .num w.lag24, .num w.hour, .num w.mean, .num w.temp⟩

/-- The Gradient Boosting row of the static weight table. -/
def gradientBoostingWeights : Weights :=
  ⟨60 / 100, 5 / 100, 28 / 100, 7 / 100, 115 / 100⟩

/-- The model's own-property lookup `modelWeights[modelType]` restricted to
the three own keys of the object literal (mockData.ts lines 99-103). -/
def ownModelWeights (modelType : String) : Option Weights :=
  if modelType = "Linear Regression" then some ⟨45 / 100, 0, 35 / 100, 20 / 100, 9 / 10⟩
  else if modelType = "Random Forest" then some ⟨54 / 100, 6 / 100, 30 / 100, 10 / 100, 105 / 100⟩
  else if modelType = "Gradient Boosting" then some gradientBoostingWeights
  else none

/-- The property names an object literal inherits from `Object.prototype`.
For these strings `modelWeights[modelType]` is a truthy inherited value (a
function, or `Object.prototype` itself for `__proto__`), so the
`|| modelWeights['Gradient Boosting']` fallback does not fire. -/
def objectPrototypeMemberNames : List String :=
  ["constructor", "hasOwnProperty", "isPrototypeOf", "propertyIsEnumerable",
   "toLocaleString", "toString", "valueOf", "__proto__",
   "__defineGetter__", "__defineSetter__", "__lookupGetter__", "__lookupSetter__"]

/-- `const weights = modelWeights[modelType] || modelWeights['Gradient
Boosting']` (mockData.ts line 105).  An unrecognized name yields `undefined`
(falsy), hence the Gradient Boosting record — except when the name is an
inherited `Object.prototype` member, which is truthy; then every weight field
read is `undefined` and behaves as NaN. -/
def resolveWeights (modelType : String) : JsWeights :=
  match ownModelWeights modelType with
  | some w => w.toJs
  | none =>
    if modelType ∈ objectPrototypeMemberNames then ⟨.nan, .nan, .nan, .nan, .nan⟩
    else gradientBoostingWeights.toJs

/-- The per-call environment of the generation loop: quantities computed
once before the walk over the sorted weather list. -/
structure EngineEnv where
  mp : Int → Option ℚ
  globalMean : ℚ
  profile : Int → ℚ
  avgDemand : ℚ
  tempBeta : ℚ
  w : JsWeights

/-- The mutable state threaded through the walk: the hour-keyed lag-history
map and the running previous realized price. -/
structure EngineState where
  lagHistory : Int → Option JsNum
  prevPrice : JsNum

/-- The message of the RangeError thrown by `Date.prototype.toISOString` on
an invalid date. -/
def invalidTimeError : String := "RangeError: Invalid time value"

/-- One iteration of the `sortedWeather.map` body (mockData.ts lines
109-145).  For an unparsable time, `timestamp` falls back to the raw string,
`new Date(raw).getTime()` is NaN, and `new Date(NaN).toISOString()` on line
116 throws a RangeError before any record is produced — modelled by
`Except.error`.  For a parsable time every step is total:
hour-of-day = hour index mod 24, the lag keys are the hour indices minus 1
and minus 24, and the realized value written back is the actual price if
present, else the predicted price. -/
def engineStep (env : EngineEnv) (st : EngineState) (obs : FmiDataPoint) :
    Except String (EngineState × PriceData) :=
  match toHourIso obs.time with
  | none => Except.error invalidTimeError
  | some h =>
    let hour := h % 24
    let demand := max 0 (comfortTemp - obs.temperature)
    let centeredDemand := demand - env.avgDemand
    let lag1 := (st.lagHistory (h - 1)).getD st.prevPrice
    let lag24 := (st.lagHistory (h - 24)).getD (.num env.globalMean)
    let hourMean := if env.profile hour > 0 then env.profile hour else env.globalMean
    let predictedRaw :=
      env.w.lag1 * lag1 + env.w.lag24 * lag24 + env.w.hour * JsNum.num hourMean +
        env.w.mean * JsNum.num env.globalMean +
        env.w.temp * JsNum.num env.tempBeta * JsNum.num centeredDemand
    let predictedPrice := jsRound2 (jsMax (.num (-20)) (jsMin (.num 450) predictedRaw))
    let marketPrice := env.mp h
    let actualPrice := if !obs.isForecast then marketPrice.map round2 else none
    let realizedForLag := (actualPrice.map JsNum.num).getD predictedPrice
    Except.ok
      (⟨fun k => if k = h then some realizedForLag else st.lagHistory k, realizedForLag⟩,
       ⟨h, actualPrice, predictedPrice, obs.temperature, obs.isForecast⟩)

/-- The walk over the sorted weather list; a thrown exception aborts the
whole `map` and propagates. -/
def engineRun (env : EngineEnv) : EngineState → List FmiDataPoint →
    Except String (List PriceData)
  | _, [] => Except.ok []
  | st, obs :: rest =>
    match engineStep env st obs with
    | Except.error e => Except.error e
    | Except.ok (st2, r) =>
      match engineRun env st2 rest with
      | Except.error e => Except.error e
      | Except.ok out => Except.ok (r :: out)

/-- The engine on an already-sorted weather list: build the market map, the
historical pairs and the derived scalars (mockData.ts lines 70-107), then
walk the list with lag history seeded empty and `prevPrice` seeded to the
global mean. -/
def genFromSorted (sortedWeather : List FmiDataPoint) (spotPrices : List SpotPricePoint)
    (modelType : String) : Except String (List PriceData) :=
  let mp := marketPriceMap spotPrices
  let pairs := historicalPairs sortedWeather mp
  let globalMean := engineGlobalMean sortedWeather spotPrices
  let env : EngineEnv :=
    ⟨mp, globalMean, buildHourlyProfile pairs,
     mean (pairs.map (fun p => max 0 (comfortTemp - p.temperature))),
     estimateTemperatureBeta pairs comfortTemp,
     resolveWeights modelType⟩
  engineRun env ⟨fun _ => none, .num globalMean⟩ sortedWeather

/-- `generatePriceFromWeather` (mockData.ts lines 61-146): sort the weather
defensively, then generate. -/
def generatePriceFromWeather (weatherData : List FmiDataPoint)
    (spotPrices : List SpotPricePoint) (modelType : String) :
    Except String (List PriceData) :=
  genFromSorted (jsSortWeather weatherData) spotPrices modelType

/-- AggregateMetrics (mlUtils.ts lines 3-7).  Each field is a JS number:
with NaN predictions (possible under an Object.prototype model name) the
error metrics are NaN. -/
structure AggregateMetrics where
  mae : JsNum
  rmse : JsNum
  r2 : JsNum
deriving DecidableEq, Repr

/-- CrossValidationResult (types.ts). -/
structure CrossValidationResult where
  fold : Nat
  trainSize : Nat
  testSize : Nat
  mae : JsNum
  rmse : JsNum
deriving DecidableEq, Repr

/-- The actual prices of the valid records of a slice. -/
def sliceActuals (valid : List PriceData) : List ℚ :=
  valid.map (fun point => point.actualPrice.getD 0)

/-- The accumulation loop of `computeFoldMetrics` (mlUtils.ts lines 19-29):
one pass accumulating (absoluteError, squaredError, totalVariance). -/
def foldMetricsAcc (valid : List PriceData) (meanActual : ℚ) : JsNum × JsNum × ℚ :=
  valid.foldl
    (fun acc point =>
      let a := point.actualPrice.getD 0
      let e := point.predictedPrice - JsNum.num a
      (acc.1 + jsAbs e, acc.2.1 + e * e, acc.2.2 + (a - meanActual) * (a - meanActual)))
    (JsNum.num 0, JsNum.num 0, (0 : ℚ))

/-- `computeFoldMetrics` (mlUtils.ts lines 9-36): filter to records with a
defined actual price; all-zero metrics for an empty result; else MAE, RMSE
and R² with the zero-variance case of R² defined as 0. -/
def computeFoldMetrics (slice : List PriceData) : AggregateMetrics :=
  let valid := slice.filter (fun point => point.actualPrice.isSome)
  if valid.length = 0 then ⟨.num 0, .num 0, .num 0⟩
  else
    let actuals := sliceActuals valid
    let meanActual := actuals.sum / (actuals.length : ℚ)
    let acc := foldMetricsAcc valid meanActual
    let mae := jsDiv acc.1 (.num valid.length)
    let rmse := jsSqrt (jsDiv acc.2.1 (.num valid.length))
    let r2 := if acc.2.2 = 0 then JsNum.num 0
      else JsNum.num 1 - jsDiv acc.2.1 (.num acc.2.2)
    ⟨mae, rmse, r2⟩

/-- The historical filter of the evaluators (mlUtils.ts lines 43 and 77):
records with a defined actual price that are not future. -/
def cvHistorical (data : List PriceData) : List PriceData :=
  data.filter (fun point => point.actualPrice.isSome && !point.isFuture)

/-- `performTimeSeriesCV` (mlUtils.ts lines 42-74): no folds below 12
qualifying points or when `foldSize < 2`; otherwise four expanding-window
folds, fold `i` testing the slice `[i*foldSize, min(total, (i+1)*foldSize))`
of the historical records. -/
def performTimeSeriesCV (data : List PriceData) : List CrossValidationResult :=
  let historical := cvHistorical data
  if historical.length < 12 then []
  else
    let totalSize := historical.length
    let foldSize := totalSize / 5
    if foldSize < 2 then []
    else
      [1, 2, 3, 4].map (fun i =>
        let trainEnd := i * foldSize
        let testEnd := min totalSize ((i + 1) * foldSize)
        let testSlice := (historical.take testEnd).drop trainEnd
        let metrics := computeFoldMetrics testSlice
        ⟨i, trainEnd, testSlice.length, jsRound2 metrics.mae, jsRound2 metrics.rmse⟩)

/-- `computeAggregateMetrics` (mlUtils.ts lines 76-85): fold metrics of the
whole historical portion, each rounded to 2 decimals. -/
def computeAggregateMetrics (data : List PriceData) : AggregateMetrics :=
  let metrics := computeFoldMetrics (cvHistorical data)
  ⟨jsRound2 metrics.mae, jsRound2 metrics.rmse, jsRound2 metrics.r2⟩

/-- `predictHorizon` (mlUtils.ts lines 90-93): add 0.35 per unit of heating
demand below 15 °C to the current price, rounded to 2 decimals. -/
def predictHorizon (currentPrice currentTemp : ℚ) : ℚ :=
  let heatingDemand := max 0 (15 - currentTemp)
  round2 (currentPrice + heatingDemand * (35 / 100))

/-! ### Arithmetic helper lemmas -/

theorem JsNum.num_add (a b : ℚ) : JsNum.num a + JsNum.num b = JsNum.num (a + b) := rfl

theorem JsNum.num_sub (a b : ℚ) : JsNum.num a - JsNum.num b = JsNum.num (a - b) := rfl

theorem JsNum.num_mul (a b : ℚ) : JsNum.num a * JsNum.num b = JsNum.num (a * b) := rfl

theorem round_rat_mono {x y : ℚ} (h : x ≤ y) : round x ≤ round y := by
  rw [round_eq, round_eq]
  exact Int.floor_le_floor (by linarith)

theorem round_rat_nonneg {x : ℚ} (h : 0 ≤ x) : 0 ≤ round x := by
  have h0 : round (0 : ℚ) ≤ round x := round_rat_mono h
  simpa using h0

theorem round2_nonneg {x : ℚ} (h : 0 ≤ x) : 0 ≤ round2 x := by
  unfold round2
  rw [if_neg (by linarith)]
  have := round_rat_nonneg (by linarith : (0 : ℚ) ≤ x * 100)
  have hc : (0 : ℚ) ≤ ((round (x * 100) : ℤ) : ℚ) := by exact_mod_cast this
  linarith

theorem round2_mono {x y : ℚ} (h : x ≤ y) : round2 x ≤ round2 y := by
  by_cases hx : x < 0
  · by_cases hy : y < 0
    · unfold round2
      rw [if_pos hx, if_pos hy]
      have hm : round ((-y) * 100) ≤ round ((-x) * 100) := round_rat_mono (by linarith)
      have hc : ((round ((-y) * 100) : ℤ) : ℚ) ≤ ((round ((-x) * 100) : ℤ) : ℚ) := by
        exact_mod_cast hm
      linarith
    · have h1 : round2 x ≤ 0 := by
        unfold round2
        rw [if_pos hx]
        have := round_rat_nonneg (by linarith : (0 : ℚ) ≤ (-x) * 100)
        have hc : (0 : ℚ) ≤ ((round ((-x) * 100) : ℤ) : ℚ) := by exact_mod_cast this
        linarith
      have h2 : 0 ≤ round2 y := round2_nonneg (by linarith)
      linarith
  · have hy : ¬ y < 0 := by intro hc; exact hx (lt_of_le_of_lt h hc)
    unfold round2
    rw [if_neg hx, if_neg hy]
    have hm : round (x * 100) ≤ round (y * 100) := round_rat_mono (by linarith)
    have hc : ((round (x * 100) : ℤ) : ℚ) ≤ ((round (y * 100) : ℤ) : ℚ) := by
      exact_mod_cast hm
    linarith

/-- Rounding to 2 decimals cannot leave the interval [-20, 450] once the
argument has been clamped into it. -/
theorem round2_clamp_bounds (raw : ℚ) :
    -20 ≤ round2 (max (-20) (min 450 raw)) ∧ round2 (max (-20) (min 450 raw)) ≤ 450 := by
  have h1 : (-20 : ℚ) ≤ max (-20) (min 450 raw) := le_max_left _ _
  have h2 : max (-20 : ℚ) (min 450 raw) ≤ 450 :=
    max_le (by norm_num) (min_le_left _ _)
  have hlo : round2 (-20 : ℚ) = -20 := by
    unfold round2
    rw [if_pos (by norm_num)]
    norm_num
  have hhi : round2 (450 : ℚ) = 450 := by
    unfold round2
    rw [if_neg (by norm_num)]
    norm_num
  constructor
  · calc (-20 : ℚ) = round2 (-20) := hlo.symm
      _ ≤ _ := round2_mono h1
  · calc round2 (max (-20 : ℚ) (min 450 raw)) ≤ round2 450 := round2_mono h2
      _ = 450 := hhi

/-! ### Sample inputs used by witnesses and counterexamples -/

/-- The default model name. -/
def gbName : String := "Gradient Boosting"

/-- C10: `predictHorizon` is the current price plus 0.35 per unit of heating
demand, rounded to 2 decimals; so it is at least the rounded current price,
equals it at or above the comfort temperature, and is antitone in the
temperature. -/
theorem predictHorizon_spec (p t t2 : ℚ) :
    (round2 p ≤ predictHorizon p t) ∧
    (15 ≤ t → predictHorizon p t = round2 p) ∧
    (t ≤ t2 → predictHorizon p t2 ≤ predictHorizon p t) := by
  refine ⟨?_, ?_, ?_⟩
  · unfold predictHorizon
    apply round2_mono
    have : (0 : ℚ) ≤ max 0 (15 - t) := le_max_left _ _
    nlinarith
  · intro h
    unfold predictHorizon
    rw [max_eq_left (by linarith)]
    norm_num
  · intro h
    unfold predictHorizon
    apply round2_mono
    have hmax : max 0 (15 - t2) ≤ max 0 (15 - t) :=
      max_le_max (le_refl 0) (by linarith)
    nlinarith [le_max_left (0 : ℚ) (15 - t2), le_max_left (0 : ℚ) (15 - t)]

/-- C10 witness: the theorem applied at price 50 and temperatures 5 and 15. -/
theorem predictHorizon_spec_witness :
    ((5 : ℚ) ≤ 15 ∧ (15 : ℚ) ≤ 15) ∧
    round2 50 ≤ predictHorizon 50 5 ∧
    predictHorizon 50 15 = round2 50 ∧
    predictHorizon 50 15 ≤ predictHorizon 50 5 :=
  ⟨⟨by norm_num, by norm_num⟩,
   (predictHorizon_spec 50 5 15).1,
   (predictHorizon_spec 50 15 5).2.1 (by norm_num),
   (predictHorizon_spec 50 5 15).2.2 (by norm_num)⟩

/-- C9: the cross-validation evaluator returns either no folds at all or
exactly the four folds numbered 1, 2, 3, 4 in order. -/
theorem cv_zero_or_four_folds (data : List PriceData) :
    performTimeSeriesCV data = [] ∨
      (performTimeSeriesCV data).map (fun r => r.fold) = [1, 2, 3, 4] := by
  unfold performTimeSeriesCV
  by_cases h1 : (cvHistorical data).length < 12
  · left
    simp [h1]
  · by_cases h2 : (cvHistorical data).length / 5 < 2
    · left
      simp [h1, h2]
    · right
      simp [h1, h2]

/-- A forecast weather sample at epoch hour 0, 15 °C. -/
def forecastSample : FmiDataPoint := ⟨.valid 0, 15, true⟩

/-- A historical weather sample at epoch hour 0, 15 °C. -/
def histSample : FmiDataPoint := ⟨.valid 0, 15, false⟩

/-- A market price of 42 at epoch hour 0. -/
def spot42 : SpotPricePoint := ⟨.valid 0, 42, false⟩

/-- C1: the specification's no-throw policy is violated by the code.  A
weather sample whose time string does not parse makes `toHourIso` return
`''`, the `|| obs.time` fallback keeps the raw string, `new
Date(raw).getTime()` is NaN, and `new Date(NaN - 3600000).toISOString()`
(mockData.ts line 116) throws a RangeError instead of producing a degenerate
record — while the empty weather input does return the degenerate empty
list. -/
theorem generate_throws_on_unparsable_time :
    generatePriceFromWeather [⟨.invalid 0, 5, false⟩] [] gbName =
      Except.error invalidTimeError ∧
    generatePriceFromWeather [] [] gbName = Except.ok [] :=
  ⟨rfl, rfl⟩

/-- C2 counterexample: with `modelType = "toString"` (a truthy inherited
`Object.prototype` member, so the `|| 'Gradient Boosting'` fallback does not
fire and every weight field reads as `undefined`), the single output
record's `predictedPrice` is NaN — not a number in [-20, 450]. -/
theorem predictedPrice_nan_on_prototype_model :
    generatePriceFromWeather [forecastSample] [] "toString" =
      Except.ok [⟨0, none, JsNum.nan, 15, true⟩] :=
  rfl

/-- A model name outside the inherited `Object.prototype` members resolves
to an actual weight record (one of the three rows, or the Gradient Boosting
fallback). -/
theorem resolveWeights_isNum (modelType : String)
    (hm : modelType ∉ objectPrototypeMemberNames) :
    ∃ W : Weights, resolveWeights modelType = W.toJs := by
  unfold resolveWeights
  cases h : ownModelWeights modelType with
  | some w => exact ⟨w, rfl⟩
  | none =>
    rw [if_neg hm]
    exact ⟨gradientBoostingWeights, rfl⟩

/-- `Option.getD` over an optional rational mapped into `JsNum` with a
rational default always yields a rational. -/
theorem getD_map_num (o : Option ℚ) (d : ℚ) :
    ∃ q : ℚ, (o.map JsNum.num).getD (JsNum.num d) = JsNum.num q := by
  cases o with
  | none => exact ⟨d, rfl⟩
  | some a => exact ⟨a, rfl⟩

/-- With an actual weight record, one engine step on a state of rational
values produces a record whose predicted price is a rational in [-20, 450]
and a next state of rational values. -/
theorem engineStep_ok_shape (env : EngineEnv) (W : Weights) (hw : env.w = W.toJs)
    (st : EngineState) (obs : FmiDataPoint) (st2 : EngineState) (r : PriceData)
    (hlag : ∀ k v, st.lagHistory k = some v → ∃ q : ℚ, v = JsNum.num q)
    (hprev : ∃ q : ℚ, st.prevPrice = JsNum.num q)
    (hstep : engineStep env st obs = Except.ok (st2, r)) :
    (∃ q : ℚ, r.predictedPrice = JsNum.num q ∧ -20 ≤ q ∧ q ≤ 450) ∧
    (∀ k v, st2.lagHistory k = some v → ∃ q : ℚ, v = JsNum.num q) ∧
    (∃ q : ℚ, st2.prevPrice = JsNum.num q) := by
  cases hh : toHourIso obs.time with
  | none => simp [engineStep, hh] at hstep
  | some h =>
    obtain ⟨p, hp⟩ := hprev
    have hlag1 : ∃ q1 : ℚ, (st.lagHistory (h - 1)).getD st.prevPrice = JsNum.num q1 := by
      cases hl : st.lagHistory (h - 1) with
      | none => exact ⟨p, by simp [hl, hp]⟩
      | some v =>
        obtain ⟨q, hq⟩ := hlag _ _ hl
        exact ⟨q, by simp [hl, hq]⟩
    have hlag24 : ∃ q2 : ℚ,
        (st.lagHistory (h - 24)).getD (JsNum.num env.globalMean) = JsNum.num q2 := by
      cases hl : st.lagHistory (h - 24) with
      | none => exact ⟨env.globalMean, by simp [hl]⟩
      | some v =>
        obtain ⟨q, hq⟩ := hlag _ _ hl
        exact ⟨q, by simp [hl, hq]⟩
    obtain ⟨q1, hq1⟩ := hlag1
    obtain ⟨q2, hq2⟩ := hlag24
    simp only [engineStep, hh] at hstep
    rw [hw] at hstep
    simp only [Weights.toJs, hq1, hq2, JsNum.num_mul, JsNum.num_add, jsMin, jsMax,
      jsRound2, Except.ok.injEq, Prod.mk.injEq] at hstep
    obtain ⟨rfl, hr⟩ := hstep
    set raw : ℚ := W.lag1 * q1 + W.lag24 * q2 +
      W.hour * (if env.profile (h % 24) > 0 then env.profile (h % 24) else env.globalMean) +
      W.mean * env.globalMean + W.temp * env.tempBeta * (max 0 (comfortTemp - obs.temperature) - env.avgDemand) with hraw
    have hbounds := round2_clamp_bounds raw
    have hpredEq : r.predictedPrice = JsNum.num (round2 (max (-20) (min 450 raw))) := by
      rw [← hr]
    have hpred : ∃ q : ℚ, r.predictedPrice = JsNum.num q ∧ -20 ≤ q ∧ q ≤ 450 :=
      ⟨_, hpredEq, hbounds.1, hbounds.2⟩
    obtain ⟨qr, hqr⟩ := getD_map_num
      (if (!obs.isForecast) = true then Option.map round2 (env.mp h) else none)
      (round2 (max (-20) (min 450 raw)))
    refine ⟨hpred, ?_, ?_⟩
    · intro k v hkv
      dsimp only at hkv
      by_cases hkh : k = h
      · rw [if_pos hkh] at hkv
        rw [hqr] at hkv
        simp only [Option.some.injEq] at hkv
        exact ⟨qr, hkv.symm⟩
      · rw [if_neg hkh] at hkv
        exact hlag _ _ hkv
    · dsimp only
      exact ⟨qr, hqr⟩

/-- With an actual weight record and a state of rational values, every
record the run produces has a rational predicted price in [-20, 450]. -/
theorem engineRun_num_bounds (env : EngineEnv) (W : Weights) (hw : env.w = W.toJs)
    (ws : List FmiDataPoint) :
    ∀ (st : EngineState),
      (∀ k v, st.lagHistory k = some v → ∃ q : ℚ, v = JsNum.num q) →
      (∃ q : ℚ, st.prevPrice = JsNum.num q) →
      ∀ out, engineRun env st ws = Except.ok out →
      ∀ r ∈ out, ∃ q : ℚ, r.predictedPrice = JsNum.num q ∧ -20 ≤ q ∧ q ≤ 450 := by
  induction ws with
  | nil =>
    intro st _ _ out hok r hr
    simp only [engineRun, Except.ok.injEq] at hok
    subst hok
    simp at hr
  | cons obs rest ih =>
    intro st hlag hprev out hok r hr
    cases hstep : engineStep env st obs with
    | error e => simp [engineRun, hstep] at hok
    | ok pair =>
      obtain ⟨st2, r0⟩ := pair
      simp only [engineRun, hstep] at hok
      cases hrec : engineRun env st2 rest with
      | error e => simp [hrec] at hok
      | ok out2 =>
        simp only [hrec, Except.ok.injEq] at hok
        subst hok
        obtain ⟨hpred, hlag2, hprev2⟩ := engineStep_ok_shape env W hw st obs st2 r0 hlag hprev hstep
        rcases List.mem_cons.mp hr with hr0 | hrmem
        · subst hr0
          exact hpred
        · exact ih st2 hlag2 hprev2 out2 hrec r hrmem

/-- C2 (amended): for every model name that is not an inherited
`Object.prototype` member, every output record's predicted price is a
rational number in [-20, 450] (with such a name it can never be NaN). -/
theorem predictedPrice_bounded (weatherData : List FmiDataPoint)
    (spotPrices : List SpotPricePoint) (modelType : String)
    (hm : modelType ∉ objectPrototypeMemberNames) (out : List PriceData)
    (hok : generatePriceFromWeather weatherData spotPrices modelType = Except.ok out) :
    ∀ r ∈ out, ∃ q : ℚ, r.predictedPrice = JsNum.num q ∧ -20 ≤ q ∧ q ≤ 450 := by
  obtain ⟨W, hW⟩ := resolveWeights_isNum modelType hm
  unfold generatePriceFromWeather genFromSorted at hok
  exact engineRun_num_bounds _ W hW _ _ (fun k v hkv => by simp at hkv) ⟨_, rfl⟩ out hok

/-- C4 counterexample: `modelType = "toString"` does not fall back to the
Gradient Boosting weights — its output differs from the Gradient Boosting
output on the same inputs. -/
theorem prototype_model_not_gradient_boosting :
    generatePriceFromWeather [forecastSample] [] "toString" =
      Except.ok [⟨0, none, JsNum.nan, 15, true⟩] ∧
    generatePriceFromWeather [forecastSample] [] gbName =
      Except.ok [⟨0, none, JsNum.num 30, 15, true⟩] ∧
    (⟨0, none, JsNum.nan, 15, true⟩ : PriceData) ≠ ⟨0, none, JsNum.num 30, 15, true⟩ := by
  have hrw : resolveWeights gbName = gradientBoostingWeights.toJs := rfl
  refine ⟨rfl, ?_, by decide⟩
  norm_num [generatePriceFromWeather, genFromSorted, jsSortWeather, List.insertionSort,
    marketPriceMap, historicalPairs, engineGlobalMean, engineHistMean, jsOr, mean,
    buildHourlyProfile, estimateTemperatureBeta, comfortTemp, hrw,
    gradientBoostingWeights, Weights.toJs, engineRun, engineStep, toHourIso, parseMs,
    forecastSample, jsRound2, jsMax, jsMin, round2, JsNum.num_mul, JsNum.num_add]

/-- C2 witness: the bound theorem applied to a one-sample forecast input
under the Gradient Boosting model, whose single record predicts 30. -/
theorem predictedPrice_bounded_witness :
    gbName ∉ objectPrototypeMemberNames ∧
    ∀ r ∈ [(⟨0, none, JsNum.num 30, 15, true⟩ : PriceData)],
      ∃ q : ℚ, r.predictedPrice = JsNum.num q ∧ -20 ≤ q ∧ q ≤ 450 := by
  constructor
  · decide
  · apply predictedPrice_bounded [forecastSample] [] gbName (by decide)
    have hrw : resolveWeights gbName = gradientBoostingWeights.toJs := rfl
    norm_num [generatePriceFromWeather, genFromSorted, jsSortWeather, List.insertionSort,
      marketPriceMap, historicalPairs, engineGlobalMean, engineHistMean, jsOr, mean,
      buildHourlyProfile, estimateTemperatureBeta, comfortTemp, hrw,
      gradientBoostingWeights, Weights.toJs, engineRun, engineStep, toHourIso, parseMs,
      forecastSample, jsRound2, jsMax, jsMin, round2, JsNum.num_mul, JsNum.num_add]

/-- C4 (amended): every model name other than the three table rows and the
inherited `Object.prototype` members yields exactly the Gradient Boosting
output. -/
theorem unknown_model_falls_back (weatherData : List FmiDataPoint)
    (spotPrices : List SpotPricePoint) (modelType : String)
    (h1 : modelType ≠ "Linear Regression") (h2 : modelType ≠ "Random Forest")
    (h3 : modelType ≠ "Gradient Boosting") (h4 : modelType ∉ objectPrototypeMemberNames) :
    generatePriceFromWeather weatherData spotPrices modelType =
      generatePriceFromWeather weatherData spotPrices gbName := by
  have hres : resolveWeights modelType = resolveWeights gbName := by
    unfold resolveWeights ownModelWeights
    rw [if_neg h1, if_neg h2, if_neg h3, if_neg h4]
    rfl
  unfold generatePriceFromWeather genFromSorted
  rw [hres]

/-- An arbitrary unrecognized model name. -/
def unknownModelName : String := "Foobar Model"

/-- C4 witness: the fallback theorem applied to the name `Foobar Model`. -/
theorem unknown_model_falls_back_witness :
    (unknownModelName ≠ "Linear Regression" ∧ unknownModelName ≠ "Random Forest" ∧
     unknownModelName ≠ "Gradient Boosting" ∧
     unknownModelName ∉ objectPrototypeMemberNames) ∧
    generatePriceFromWeather [forecastSample] [] unknownModelName =
      generatePriceFromWeather [forecastSample] [] gbName :=
  ⟨⟨by decide, by decide, by decide, by decide⟩,
   unknown_model_falls_back [forecastSample] [] unknownModelName (by decide) (by decide)
     (by decide) (by decide)⟩

/-- C5 counterexample: one historical pair whose market price is 0 makes the
mean of the historical prices 0, and the `||` fallback then sets the global
mean to 30 even though a historical pair exists (the claim would require the
global mean to be the pair mean, 0). -/
theorem globalMean_thirty_with_zero_mean_pairs :
    historicalPairs (jsSortWeather [⟨.valid 0, 10, false⟩])
        (marketPriceMap [⟨.valid 0, 0, false⟩]) = [⟨0, 10, 0⟩] ∧
    engineHistMean (jsSortWeather [⟨.valid 0, 10, false⟩]) [⟨.valid 0, 0, false⟩] = 0 ∧
    engineGlobalMean (jsSortWeather [⟨.valid 0, 10, false⟩]) [⟨.valid 0, 0, false⟩] = 30 := by
  have hp : historicalPairs (jsSortWeather [⟨.valid 0, 10, false⟩])
      (marketPriceMap [⟨.valid 0, 0, false⟩]) = [⟨0, 10, 0⟩] := by decide
  have hm : engineHistMean (jsSortWeather [⟨.valid 0, 10, false⟩]) [⟨.valid 0, 0, false⟩] = 0 := by
    rw [engineHistMean, hp]
    norm_num [mean]
  refine ⟨hp, hm, ?_⟩
  rw [engineGlobalMean, hm, jsOr]
  norm_num

/-- C5 (amended): the engine's global mean is the mean of the historical
actual prices whenever that mean is nonzero, and is 30 exactly when that
mean is 0 — which happens when there are no historical pairs, but also when
existing pair prices average to 0. -/
theorem globalMean_spec (sortedWeather : List FmiDataPoint)
    (spotPrices : List SpotPricePoint) :
    (engineHistMean sortedWeather spotPrices ≠ 0 →
      engineGlobalMean sortedWeather spotPrices = engineHistMean sortedWeather spotPrices) ∧
    (engineHistMean sortedWeather spotPrices = 0 →
      engineGlobalMean sortedWeather spotPrices = 30) ∧
    (historicalPairs sortedWeather (marketPriceMap spotPrices) = [] →
      engineGlobalMean sortedWeather spotPrices = 30) := by
  refine ⟨?_, ?_, ?_⟩
  · intro h
    simp [engineGlobalMean, jsOr, h]
  · intro h
    simp [engineGlobalMean, jsOr, h]
  · intro h
    simp [engineGlobalMean, engineHistMean, jsOr, h, mean]

/-- C5 witness: with one matched pair at price 42 the mean is 42 ≠ 0, and
the theorem gives globalMean = that mean. -/
theorem globalMean_spec_witness :
    engineHistMean (jsSortWeather [histSample]) [spot42] ≠ 0 ∧
    engineGlobalMean (jsSortWeather [histSample]) [spot42] =
      engineHistMean (jsSortWeather [histSample]) [spot42] := by
  have hp : historicalPairs (jsSortWeather [histSample]) (marketPriceMap [spot42]) =
      [⟨0, 15, 42⟩] := by decide
  have h : engineHistMean (jsSortWeather [histSample]) [spot42] = 42 := by
    rw [engineHistMean, hp]
    norm_num [mean]
  exact ⟨by rw [h]; norm_num, (globalMean_spec _ _).1 (by rw [h]; norm_num)⟩

/-- The length of the fold-`i` test slice: the take/drop window
`[i*f, min(total, (i+1)*f))` has exactly `f` records when `5*f ≤ total` and
`i + 1 ≤ 5`. -/
theorem cv_slice_len (n f i : ℕ) (h5 : 5 * f ≤ n) (hi : i + 1 ≤ 5) :
    min (min n ((i + 1) * f)) n - i * f = f := by
  have h1 : (i + 1) * f ≤ n := by
    calc (i + 1) * f ≤ 5 * f := Nat.mul_le_mul_right f hi
    _ ≤ n := h5
  rw [min_eq_right h1, min_eq_left h1, Nat.succ_mul]
  omega

/-- C6 (amended): below 12 qualifying historical points the evaluator yields
no folds; at 12 or more, with `f = ⌊total/5⌋`, it yields folds 1-4 with
`trainSize = i·f` and `testSize = min(total, (i+1)·f) − i·f = f` — so train
sizes are strictly increasing and test windows are disjoint, but the last
fold ends at `5·f`, leaving the trailing `total − 5·f` points (up to 4)
outside every test window instead of absorbing them. -/
theorem cv_fold_structure (data : List PriceData) :
    ((cvHistorical data).length < 12 → performTimeSeriesCV data = []) ∧
    (12 ≤ (cvHistorical data).length →
      (performTimeSeriesCV data).map (fun r => (r.fold, r.trainSize, r.testSize)) =
        [(1, 1 * ((cvHistorical data).length / 5), (cvHistorical data).length / 5),
         (2, 2 * ((cvHistorical data).length / 5), (cvHistorical data).length / 5),
         (3, 3 * ((cvHistorical data).length / 5), (cvHistorical data).length / 5),
         (4, 4 * ((cvHistorical data).length / 5), (cvHistorical data).length / 5)]) := by
  constructor
  · intro h
    simp [performTimeSeriesCV, h]
  · intro h
    have hn : ¬ (cvHistorical data).length < 12 := by omega
    have hf : ¬ (cvHistorical data).length / 5 < 2 := by omega
    simp only [performTimeSeriesCV, if_neg hn, if_neg hf, List.map_cons, List.map_nil,
      List.length_drop, List.length_take, List.cons.injEq, Prod.mk.injEq, and_true]
    have h5 : 5 * ((cvHistorical data).length / 5) ≤ (cvHistorical data).length := by omega
    refine ⟨⟨trivial, trivial, ?_⟩, ⟨trivial, trivial, ?_⟩, ⟨trivial, trivial, ?_⟩,
      trivial, trivial, ?_⟩
    · exact cv_slice_len _ _ 1 h5 (by omega)
    · exact cv_slice_len _ _ 2 h5 (by omega)
    · exact cv_slice_len _ _ 3 h5 (by omega)
    · exact cv_slice_len _ _ 4 h5 (by omega)

/-- 13 historical records with defined actual prices (and perfect
predictions, so the fold error metrics evaluate exactly). -/
def cvSample13 : List PriceData :=
  (List.range 13).map (fun i => ⟨(i : Int), some ((i : ℚ) + 1), JsNum.num ((i : ℚ) + 1), 0, false⟩)

/-- C6 witness: the fold-structure theorem applied to the 13-point sample
(13/5 = 2, folds (1,2,2), (2,4,2), (3,6,2), (4,8,2)). -/
theorem cv_fold_structure_witness :
    12 ≤ (cvHistorical cvSample13).length ∧
    (performTimeSeriesCV cvSample13).map (fun r => (r.fold, r.trainSize, r.testSize)) =
      [(1, 1 * ((cvHistorical cvSample13).length / 5), (cvHistorical cvSample13).length / 5),
       (2, 2 * ((cvHistorical cvSample13).length / 5), (cvHistorical cvSample13).length / 5),
       (3, 3 * ((cvHistorical cvSample13).length / 5), (cvHistorical cvSample13).length / 5),
       (4, 4 * ((cvHistorical cvSample13).length / 5), (cvHistorical cvSample13).length / 5)] :=
  ⟨by decide, (cv_fold_structure cvSample13).2 (by decide)⟩

/-- C6 counterexample: on 13 qualifying points the last fold tests the
window [8, 10), so `trainSize + testSize = 10 < 13`: the trailing 3 points
are outside every test window — the last fold does not absorb the
remainder. -/
theorem cv_last_fold_ignores_remainder :
    (cvHistorical cvSample13).length = 13 ∧
    (performTimeSeriesCV cvSample13).map (fun r => (r.fold, r.trainSize, r.testSize)) =
      [(1, 2, 2), (2, 4, 2), (3, 6, 2), (4, 8, 2)] ∧
    8 + 2 ≠ 13 :=
  ⟨by decide, by decide, by decide⟩

/-- If every prediction equals its actual price, the squared-error
accumulator of the metrics loop never moves off its starting rational. -/
theorem foldl_sq_perfect (m : ℚ) :
    ∀ (l : List PriceData),
      (∀ point ∈ l, point.predictedPrice = JsNum.num (point.actualPrice.getD 0)) →
      ∀ (acc : JsNum × JsNum × ℚ) (s : ℚ), acc.2.1 = JsNum.num s →
      (List.foldl (fun acc point =>
          let a := point.actualPrice.getD 0
          let e := point.predictedPrice - JsNum.num a
          (acc.1 + jsAbs e, acc.2.1 + e * e, acc.2.2 + (a - m) * (a - m))) acc l).2.1 =
        JsNum.num s := by
  intro l
  induction l with
  | nil =>
    intro _ acc s hs
    simpa using hs
  | cons pt rest ih =>
    intro hp acc s hs
    rw [List.foldl_cons]
    apply ih (fun x hx => hp x (List.mem_cons_of_mem _ hx))
    dsimp only
    rw [hp pt (List.mem_cons_self _ _), hs]
    simp only [JsNum.num_sub, JsNum.num_mul, JsNum.num_add, sub_self, mul_zero, add_zero,
      zero_mul]

/-- The squared-error accumulator under perfect predictions, stated for the
named accumulation loop. -/
theorem foldMetricsAcc_sq_perfect (l : List PriceData) (m : ℚ)
    (hp : ∀ point ∈ l, point.predictedPrice = JsNum.num (point.actualPrice.getD 0)) :
    (foldMetricsAcc l m).2.1 = JsNum.num 0 := by
  unfold foldMetricsAcc
  exact foldl_sq_perfect m l hp (JsNum.num 0, JsNum.num 0, (0 : ℚ)) 0 rfl

/-- C7: for a slice whose points all carry an actual price — the empty slice
yields all-zero metrics; zero total variance forces R² = 0; nonzero total
variance gives R² = 1 − ΣSquaredError/ΣTotalVariance against the slice's own
actual-price mean; and perfect predictions with nonzero variance give
R² = 1, not 0. -/
theorem foldMetrics_spec (slice : List PriceData)
    (hall : ∀ point ∈ slice, point.actualPrice.isSome) :
    (slice = [] → computeFoldMetrics slice = ⟨JsNum.num 0, JsNum.num 0, JsNum.num 0⟩) ∧
    ((foldMetricsAcc slice (mean (sliceActuals slice))).2.2 = 0 →
      (computeFoldMetrics slice).r2 = JsNum.num 0) ∧
    ((foldMetricsAcc slice (mean (sliceActuals slice))).2.2 ≠ 0 →
      (computeFoldMetrics slice).r2 =
        JsNum.num 1 - jsDiv (foldMetricsAcc slice (mean (sliceActuals slice))).2.1
          (JsNum.num (foldMetricsAcc slice (mean (sliceActuals slice))).2.2)) ∧
    ((∀ point ∈ slice, point.predictedPrice = JsNum.num (point.actualPrice.getD 0)) →
      (foldMetricsAcc slice (mean (sliceActuals slice))).2.2 ≠ 0 →
      (computeFoldMetrics slice).r2 = JsNum.num 1) := by
  have hfilter : slice.filter (fun point => point.actualPrice.isSome) = slice :=
    List.filter_eq_self.mpr (fun a ha => hall a ha)
  have hne : ∀ hlen : ¬ slice.length = 0,
      (computeFoldMetrics slice).r2 =
        (if (foldMetricsAcc slice (mean (sliceActuals slice))).2.2 = 0 then JsNum.num 0
         else JsNum.num 1 - jsDiv (foldMetricsAcc slice (mean (sliceActuals slice))).2.1
           (JsNum.num (foldMetricsAcc slice (mean (sliceActuals slice))).2.2)) := by
    intro hlen
    have hmean : (sliceActuals slice).sum / ((sliceActuals slice).length : ℚ) =
        mean (sliceActuals slice) := by
      rw [mean, if_neg (by simpa [sliceActuals] using hlen)]
    unfold computeFoldMetrics
    rw [hfilter, if_neg hlen]
    dsimp only
    rw [hmean]
  refine ⟨?_, ?_, ?_, ?_⟩
  · intro h
    subst h
    rfl
  · intro hv
    by_cases hempty : slice.length = 0
    · rw [List.length_eq_zero] at hempty
      subst hempty
      rfl
    · rw [hne hempty, if_pos hv]
  · intro hv
    have hempty : ¬ slice.length = 0 := by
      intro hlen
      rw [List.length_eq_zero] at hlen
      subst hlen
      exact hv rfl
    rw [hne hempty, if_neg hv]
  · intro hp hv
    have hempty : ¬ slice.length = 0 := by
      intro hlen
      rw [List.length_eq_zero] at hlen
      subst hlen
      exact hv rfl
    rw [hne hempty, if_neg hv, foldMetricsAcc_sq_perfect slice _ hp]
    simp [jsDiv, JsNum.num_sub]

/-- A two-point slice with distinct actual prices and perfect predictions. -/
def perfectSlice : List PriceData :=
  [⟨0, some 1, JsNum.num 1, 0, false⟩, ⟨1, some 3, JsNum.num 3, 0, false⟩]

/-- C7 witness: on the two-point perfect slice the total variance is 2 ≠ 0
and the theorem yields R² = 1. -/
theorem foldMetrics_spec_witness :
    (∀ point ∈ perfectSlice, point.actualPrice.isSome) ∧
    (computeFoldMetrics perfectSlice).r2 = JsNum.num 1 := by
  refine ⟨by decide, ?_⟩
  apply (foldMetrics_spec perfectSlice (by decide)).2.2.2 (by decide)
  norm_num [foldMetricsAcc, perfectSlice, sliceActuals, mean, List.foldl_cons,
    List.foldl_nil, JsNum.num_sub, JsNum.num_mul, JsNum.num_add, jsAbs]

/-- The hour-keyed price map build: a key is absent exactly when the initial
map misses it and no spot entry's hour ISO equals it. -/
theorem marketPriceMap_foldl_none (l : List SpotPricePoint) :
    ∀ (m0 : Int → Option ℚ) (h : Int),
      (l.foldl
        (fun m point =>
          match toHourIso point.timestamp with
          | some hk => fun k => if k = hk then some point.price else m k
          | none => m)
        m0) h = none ↔
      (m0 h = none ∧ ∀ sp ∈ l, toHourIso sp.timestamp ≠ some h) := by
  induction l with
  | nil =>
    intro m0 h
    simp
  | cons sp rest ih =>
    intro m0 h
    rw [List.foldl_cons, ih]
    cases ht : toHourIso sp.timestamp with
    | none =>
      simp only [ht]
      constructor
      · rintro ⟨h1, h2⟩
        exact ⟨h1, by
          intro x hx
          rcases List.mem_cons.mp hx with rfl | hx2
          · rw [ht]; exact fun hc => Option.noConfusion hc
          · exact h2 x hx2⟩
      · rintro ⟨h1, h2⟩
        exact ⟨h1, fun x hx => h2 x (List.mem_cons_of_mem _ hx)⟩
    | some hk =>
      simp only [ht]
      by_cases hhk : h = hk
      · subst hhk
        simp only [if_pos rfl]
        constructor
        · rintro ⟨h1, -⟩
          exact absurd h1 (by simp)
        · rintro ⟨-, h2⟩
          exact absurd (h2 sp (List.mem_cons_self _ _)) (by simp [ht])
      · simp only [if_neg hhk]
        constructor
        · rintro ⟨h1, h2⟩
          refine ⟨h1, ?_⟩
          intro x hx
          rcases List.mem_cons.mp hx with rfl | hx2
          · rw [ht]
            intro hc
            exact hhk (by injection hc with hc2; exact hc2.symm)
          · exact h2 x hx2
        · rintro ⟨h1, h2⟩
          exact ⟨h1, fun x hx => h2 x (List.mem_cons_of_mem _ hx)⟩

/-- A value found in the price map build comes from the initial map or from
a spot entry with that hour and that price. -/
theorem marketPriceMap_foldl_some (l : List SpotPricePoint) :
    ∀ (m0 : Int → Option ℚ) (h : Int) (v : ℚ),
      (l.foldl
        (fun m point =>
          match toHourIso point.timestamp with
          | some hk => fun k => if k = hk then some point.price else m k
          | none => m)
        m0) h = some v →
      m0 h = some v ∨ ∃ sp ∈ l, toHourIso sp.timestamp = some h ∧ v = sp.price := by
  induction l with
  | nil =>
    intro m0 h v hv
    exact Or.inl hv
  | cons sp rest ih =>
    intro m0 h v hv
    rw [List.foldl_cons] at hv
    rcases ih _ _ _ hv with hbase | ⟨x, hx, hx2⟩
    · cases ht : toHourIso sp.timestamp with
      | none =>
        simp only [ht] at hbase
        exact Or.inl hbase
      | some hk =>
        simp only [ht] at hbase
        by_cases hhk : h = hk
        · rw [if_pos hhk] at hbase
          refine Or.inr ⟨sp, List.mem_cons_self _ _, ?_, ?_⟩
          · rw [ht, hhk]
          · injection hbase with hb
            exact hb.symm
        · rw [if_neg hhk] at hbase
          exact Or.inl hbase
    · exact Or.inr ⟨x, List.mem_cons_of_mem _ hx, hx2⟩

/-- `marketPriceMap` misses a key exactly when no spot entry's hour ISO
equals it. -/
theorem marketPriceMap_none_iff (spotPrices : List SpotPricePoint) (h : Int) :
    marketPriceMap spotPrices h = none ↔
      ∀ sp ∈ spotPrices, toHourIso sp.timestamp ≠ some h := by
  unfold marketPriceMap
  rw [marketPriceMap_foldl_none]
  simp

/-- A `marketPriceMap` hit comes from a spot entry with that hour and that
price. -/
theorem marketPriceMap_some (spotPrices : List SpotPricePoint) (h : Int) (v : ℚ)
    (hv : marketPriceMap spotPrices h = some v) :
    ∃ sp ∈ spotPrices, toHourIso sp.timestamp = some h ∧ v = sp.price := by
  unfold marketPriceMap at hv
  rcases marketPriceMap_foldl_some spotPrices _ h v hv with hc | hgood
  · exact absurd hc (by simp)
  · exact hgood

/-- A successful engine step reproduces its weather sample: the record's
timestamp is the sample's hour ISO, temperature and future flag are copied,
and the actual price is the rounded market lookup exactly for a historical
sample. -/
theorem engineStep_ok_fields (env : EngineEnv) (st : EngineState) (obs : FmiDataPoint)
    (st2 : EngineState) (r : PriceData)
    (hstep : engineStep env st obs = Except.ok (st2, r)) :
    toHourIso obs.time = some r.timestamp ∧
    r.temperature = obs.temperature ∧
    r.isFuture = obs.isForecast ∧
    r.actualPrice =
      (if obs.isForecast = false then (env.mp r.timestamp).map round2 else none) := by
  cases hh : toHourIso obs.time with
  | none => simp [engineStep, hh] at hstep
  | some h =>
    simp only [engineStep, hh] at hstep
    simp only [Except.ok.injEq, Prod.mk.injEq] at hstep
    obtain ⟨-, hr⟩ := hstep
    subst hr
    refine ⟨by simp [hh], rfl, rfl, ?_⟩
    cases obs.isForecast <;> simp

/-- The walk pairs every weather sample with its output record through the
field relation of `engineStep_ok_fields`. -/
theorem engineRun_forall2 (env : EngineEnv) :
    ∀ (ws : List FmiDataPoint) (st : EngineState) (out : List PriceData),
      engineRun env st ws = Except.ok out →
      List.Forall₂ (fun obs r =>
        toHourIso obs.time = some r.timestamp ∧
        r.temperature = obs.temperature ∧
        r.isFuture = obs.isForecast ∧
        r.actualPrice =
          (if obs.isForecast = false then (env.mp r.timestamp).map round2 else none))
        ws out := by
  intro ws
  induction ws with
  | nil =>
    intro st out hok
    simp only [engineRun, Except.ok.injEq] at hok
    subst hok
    exact List.Forall₂.nil
  | cons obs rest ih =>
    intro st out hok
    cases hstep : engineStep env st obs with
    | error e => simp [engineRun, hstep] at hok
    | ok pair =>
      obtain ⟨st2, r0⟩ := pair
      simp only [engineRun, hstep] at hok
      cases hrec : engineRun env st2 rest with
      | error e => simp [hrec] at hok
      | ok out2 =>
        simp only [hrec, Except.ok.injEq] at hok
        subst hok
        exact List.Forall₂.cons (engineStep_ok_fields env st obs st2 r0 hstep)
          (ih st2 out2 hrec)

/-- C3: in the engine's output, paired with the sorted weather input,
`actualPrice` is defined exactly when the sample is historical and some
supplied spot entry's hour-truncated timestamp equals the sample's
hour-truncated timestamp; and a defined `actualPrice` is always the rounding
of some matching spot entry's price, never a prediction. -/
theorem actualPrice_iff_historical_match (weatherData : List FmiDataPoint)
    (spotPrices : List SpotPricePoint) (modelType : String) (out : List PriceData)
    (hok : generatePriceFromWeather weatherData spotPrices modelType = Except.ok out) :
    List.Forall₂ (fun obs r =>
      (r.actualPrice ≠ none ↔
        obs.isForecast = false ∧
          ∃ sp ∈ spotPrices, toHourIso sp.timestamp = toHourIso obs.time) ∧
      ∀ q : ℚ, r.actualPrice = some q →
        ∃ sp ∈ spotPrices, toHourIso sp.timestamp = toHourIso obs.time ∧ q = round2 sp.price)
      (jsSortWeather weatherData) out := by
  unfold generatePriceFromWeather genFromSorted at hok
  have hall := engineRun_forall2 _ _ _ _ hok
  refine hall.imp ?_
  rintro obs r ⟨hts, -, -, hact⟩
  dsimp only at hact
  rw [hts]
  constructor
  · rw [hact]
    by_cases hfc : obs.isForecast = false
    · rw [if_pos hfc]
      constructor
      · intro hne
        refine ⟨hfc, ?_⟩
        have hmp : marketPriceMap spotPrices r.timestamp ≠ none := by
          intro hc
          rw [hc] at hne
          exact hne rfl
        rw [Ne, marketPriceMap_none_iff] at hmp
        push_neg at hmp
        exact hmp
      · rintro ⟨-, sp, hsp, hsph⟩
        cases hv : marketPriceMap spotPrices r.timestamp with
        | none =>
          rw [marketPriceMap_none_iff] at hv
          exact absurd hsph (hv sp hsp)
        | some v => simp [hv]
    · rw [if_neg hfc]
      simp [hfc]
  · intro q hq
    rw [hact] at hq
    by_cases hfc : obs.isForecast = false
    · rw [if_pos hfc] at hq
      rw [Option.map_eq_some'] at hq
      obtain ⟨v, hv, hqv⟩ := hq
      obtain ⟨sp, hsp, hsph, hvp⟩ := marketPriceMap_some spotPrices _ v hv
      exact ⟨sp, hsp, hsph, by rw [← hqv, hvp]⟩
    · rw [if_neg hfc] at hq
      simp at hq


/-- C3 witness: the theorem applied to one historical sample at epoch hour 0
with one matching spot price of 42; the single output record carries
`actualPrice = some 42`. -/
theorem actualPrice_iff_historical_match_witness :
    List.Forall₂ (fun (obs : FmiDataPoint) (r : PriceData) =>
      (r.actualPrice ≠ none ↔
        obs.isForecast = false ∧
          ∃ sp ∈ [spot42], toHourIso sp.timestamp = toHourIso obs.time) ∧
      ∀ q : ℚ, r.actualPrice = some q →
        ∃ sp ∈ [spot42], toHourIso sp.timestamp = toHourIso obs.time ∧ q = round2 sp.price)
      (jsSortWeather [histSample]) [⟨0, some 42, JsNum.num 42, 15, false⟩] :=
  actualPrice_iff_historical_match [histSample] [spot42] gbName
    [⟨0, some 42, JsNum.num 42, 15, false⟩] (by
      have hrw : resolveWeights gbName = gradientBoostingWeights.toJs := rfl
      have hp : historicalPairs (jsSortWeather [histSample]) (marketPriceMap [spot42]) =
          [⟨0, 15, 42⟩] := by decide
      have hmp0 : marketPriceMap [spot42] 0 = some 42 := by decide
      have hsort : jsSortWeather [histSample] = [histSample] := by decide
      have hhour : toHourIso histSample.time = some 0 := by decide
      have hmod : (0 : Int) % 24 = 0 := by decide
      have hbeta : estimateTemperatureBeta [⟨0, 15, 42⟩] comfortTemp = 0 := rfl
      have hgm : engineGlobalMean (jsSortWeather [histSample]) [spot42] = 42 := by
        rw [engineGlobalMean, engineHistMean, hp]
        norm_num [mean, jsOr]
      rw [generatePriceFromWeather, genFromSorted, hp, hgm, hsort, hbeta, hrw]
      rw [engineRun, engineStep, hhour]
      norm_num [engineRun, hmp0, hmod, buildHourlyProfile, mean, comfortTemp, histSample,
        gradientBoostingWeights, Weights.toJs, jsRound2, jsMax, jsMin, round2,
        JsNum.num_mul, JsNum.num_add, List.filter_cons, List.filter_nil])

/-- The sort comparator is total (a NaN comparison counts as a tie in both
directions). -/
theorem jsSortLe_total (a b : FmiDataPoint) : WLe a b ∨ WLe b a := by
  unfold WLe jsSortLe
  cases ha : parseMs a.time with
  | none => left; simp [ha]
  | some x =>
    cases hb : parseMs b.time with
    | none => left; simp [ha, hb]
    | some y =>
      simp only [ha, hb, decide_eq_true_eq]
      exact Int.le_total x y

/-- The comparator is transitive on samples whose times parse. -/
theorem jsSortLe_trans_valid {a b c : FmiDataPoint}
    (ha : (parseMs a.time).isSome) (hb : (parseMs b.time).isSome)
    (hc : (parseMs c.time).isSome) (h1 : WLe a b) (h2 : WLe b c) : WLe a c := by
  obtain ⟨x, hx⟩ := Option.isSome_iff_exists.mp ha
  obtain ⟨y, hy⟩ := Option.isSome_iff_exists.mp hb
  obtain ⟨z, hz⟩ := Option.isSome_iff_exists.mp hc
  unfold WLe jsSortLe at h1 h2 ⊢
  simp only [hx, hy, hz, decide_eq_true_eq] at h1 h2 ⊢
  exact le_trans h1 h2

/-- Two parsable samples comparing equal in both directions have equal
parse times. -/
theorem parseMs_eq_of_wle {a b : FmiDataPoint}
    (ha : (parseMs a.time).isSome) (hb : (parseMs b.time).isSome)
    (h1 : WLe a b) (h2 : WLe b a) : parseMs a.time = parseMs b.time := by
  obtain ⟨x, hx⟩ := Option.isSome_iff_exists.mp ha
  obtain ⟨y, hy⟩ := Option.isSome_iff_exists.mp hb
  unfold WLe jsSortLe at h1 h2
  simp only [hx, hy, decide_eq_true_eq] at h1 h2
  rw [hx, hy, le_antisymm h1 h2]

/-- Inserting a parsable sample into a comparator-sorted list of parsable
samples keeps it sorted. -/
theorem orderedInsert_pairwise (a : FmiDataPoint) (l : List FmiDataPoint)
    (ha : (parseMs a.time).isSome) (hl : ∀ x ∈ l, (parseMs x.time).isSome)
    (hp : l.Pairwise WLe) : (List.orderedInsert WLe a l).Pairwise WLe := by
  induction l with
  | nil => simp [List.orderedInsert]
  | cons b t ih =>
    rw [List.orderedInsert]
    obtain ⟨hbt, hpt⟩ := List.pairwise_cons.mp hp
    by_cases hab : WLe a b
    · rw [if_pos hab]
      refine List.Pairwise.cons ?_ hp
      intro x hx
      rcases List.mem_cons.mp hx with rfl | hxt
      · exact hab
      · exact jsSortLe_trans_valid ha (hl b (List.mem_cons_self _ _))
          (hl x (List.mem_cons_of_mem _ hxt)) hab (hbt x hxt)
    · rw [if_neg hab]
      have hba : WLe b a := (jsSortLe_total a b).resolve_left hab
      refine List.Pairwise.cons ?_ (ih (fun x hx => hl x (List.mem_cons_of_mem _ hx)) hpt)
      intro x hx
      rcases (List.mem_orderedInsert _).mp hx with rfl | hxt
      · exact hba
      · exact hbt x hxt

/-- The defensive sort of a list of parsable samples is comparator-sorted. -/
theorem jsSortWeather_pairwise (l : List FmiDataPoint)
    (hl : ∀ x ∈ l, (parseMs x.time).isSome) : (jsSortWeather l).Pairwise WLe := by
  induction l with
  | nil => simp [jsSortWeather, List.insertionSort]
  | cons a t ih =>
    rw [jsSortWeather, List.insertionSort]
    refine orderedInsert_pairwise a _ (hl a (List.mem_cons_self _ _)) ?_
      (ih (fun x hx => hl x (List.mem_cons_of_mem _ hx)))
    intro x hx
    exact hl x (List.mem_cons_of_mem _ ((List.mem_insertionSort _).mp hx))

/-- Two comparator-sorted permutations of each other are equal when all
parse times exist and are pairwise distinct. -/
theorem sorted_perm_nodup_eq :
    ∀ (l1 l2 : List FmiDataPoint), l1.Perm l2 →
      (∀ x ∈ l1, (parseMs x.time).isSome) →
      (l1.map (fun o => parseMs o.time)).Nodup →
      l1.Pairwise WLe → l2.Pairwise WLe → l1 = l2 := by
  intro l1
  induction l1 with
  | nil =>
    intro l2 hperm _ _ _ _
    exact List.Perm.nil_eq hperm
  | cons a t1 ih =>
    intro l2 hperm hv hnd hp1 hp2
    cases l2 with
    | nil => exact absurd hperm.symm (by simp)
    | cons b t2 =>
      rw [List.map_cons, List.nodup_cons] at hnd
      have hab : a = b := by
        by_contra hne
        have hamem : a ∈ b :: t2 := hperm.subset (List.mem_cons_self a t1)
        have hbmem : b ∈ a :: t1 := hperm.symm.subset (List.mem_cons_self b t2)
        have hat2 : a ∈ t2 := by
          rcases List.mem_cons.mp hamem with h | h
          · exact absurd h hne
          · exact h
        have hbt1 : b ∈ t1 := by
          rcases List.mem_cons.mp hbmem with h | h
          · exact absurd h.symm hne
          · exact h
        have h1 : WLe a b := (List.pairwise_cons.mp hp1).1 b hbt1
        have h2 : WLe b a := (List.pairwise_cons.mp hp2).1 a hat2
        have heq : parseMs a.time = parseMs b.time :=
          parseMs_eq_of_wle (hv a (List.mem_cons_self _ _))
            (hv b (List.mem_cons_of_mem _ hbt1)) h1 h2
        exact hnd.1 (heq ▸ List.mem_map_of_mem _ hbt1)
      subst hab
      have hpt : t1.Perm t2 := hperm.cons_inv
      rw [ih t2 hpt (fun x hx => hv x (List.mem_cons_of_mem _ hx)) hnd.2
        (List.pairwise_cons.mp hp1).2 (List.pairwise_cons.mp hp2).2]

/-- C8 (amended): the engine is order-independent in its weather argument
provided every weather time parses and no two samples share a parse time:
any permutation of the weather list yields identical output. -/
theorem engine_order_independent (weather2 weather1 : List FmiDataPoint)
    (spotPrices : List SpotPricePoint) (modelType : String)
    (hperm : weather2.Perm weather1)
    (hv : ∀ o ∈ weather1, (parseMs o.time).isSome)
    (hnd : (weather1.map (fun o => parseMs o.time)).Nodup) :
    generatePriceFromWeather weather2 spotPrices modelType =
      generatePriceFromWeather weather1 spotPrices modelType := by
  have hv2 : ∀ o ∈ weather2, (parseMs o.time).isSome :=
    fun o ho => hv o (hperm.subset ho)
  have hs2perm : (jsSortWeather weather2).Perm (jsSortWeather weather1) :=
    (List.perm_insertionSort _ weather2).trans
      (hperm.trans (List.perm_insertionSort _ weather1).symm)
  have hvs2 : ∀ x ∈ jsSortWeather weather2, (parseMs x.time).isSome :=
    fun x hx => hv2 x ((List.mem_insertionSort _).mp hx)
  have hnds2 : ((jsSortWeather weather2).map (fun o => parseMs o.time)).Nodup := by
    have hmp : ((jsSortWeather weather2).map (fun o => parseMs o.time)).Perm
        (weather1.map (fun o => parseMs o.time)) :=
      ((List.perm_insertionSort _ weather2).trans hperm).map _
    exact hmp.nodup_iff.mpr hnd
  have heq : jsSortWeather weather2 = jsSortWeather weather1 :=
    sorted_perm_nodup_eq _ _ hs2perm hvs2 hnds2
      (jsSortWeather_pairwise weather2 hv2) (jsSortWeather_pairwise weather1 hv)
  unfold generatePriceFromWeather
  rw [heq]

/-- A forecast sample at epoch hour 0, 0 °C. -/
def wTieA : FmiDataPoint := ⟨.valid 0, 0, true⟩

/-- A forecast sample at the same instant, 10 °C. -/
def wTieB : FmiDataPoint := ⟨.valid 0, 10, true⟩

/-- C8 counterexample: two samples at the same instant with different
temperatures.  The stable sort keeps the input order of the tie, so the two
permutations produce different outputs (the records' temperatures swap). -/
theorem engine_order_dependent_on_ties :
    [wTieB, wTieA].Perm [wTieA, wTieB] ∧
    generatePriceFromWeather [wTieB, wTieA] [] gbName =
      Except.ok [⟨0, none, JsNum.num 30, 10, true⟩, ⟨0, none, JsNum.num 30, 0, true⟩] ∧
    generatePriceFromWeather [wTieA, wTieB] [] gbName =
      Except.ok [⟨0, none, JsNum.num 30, 0, true⟩, ⟨0, none, JsNum.num 30, 10, true⟩] ∧
    ([⟨0, none, JsNum.num 30, 10, true⟩, ⟨0, none, JsNum.num 30, 0, true⟩] : List PriceData) ≠
      [⟨0, none, JsNum.num 30, 0, true⟩, ⟨0, none, JsNum.num 30, 10, true⟩] := by
  have hrw : resolveWeights gbName = gradientBoostingWeights.toJs := rfl
  refine ⟨by decide, ?_, ?_, by decide⟩ <;>
    norm_num [generatePriceFromWeather, genFromSorted, jsSortWeather, List.insertionSort,
      List.orderedInsert, marketPriceMap, historicalPairs, engineGlobalMean,
      engineHistMean, jsOr, mean, buildHourlyProfile, estimateTemperatureBeta,
      comfortTemp, hrw, gradientBoostingWeights, Weights.toJs, engineRun, engineStep,
      toHourIso, parseMs, wTieA, wTieB, WLe, jsSortLe, jsRound2, jsMax, jsMin, round2,
      JsNum.num_mul, JsNum.num_add]

/-- A forecast sample at epoch hour 0, 5 °C. -/
def wDistinctA : FmiDataPoint := ⟨.valid 0, 5, true⟩

/-- A forecast sample one hour later, 7 °C. -/
def wDistinctB : FmiDataPoint := ⟨.valid 3600000, 7, true⟩

/-- C8 witness: the order-independence theorem applied to the reversal of a
two-sample list with distinct parse times. -/
theorem engine_order_independent_witness :
    ([wDistinctB, wDistinctA].Perm [wDistinctA, wDistinctB] ∧
     (∀ o ∈ [wDistinctA, wDistinctB], (parseMs o.time).isSome) ∧
     ([wDistinctA, wDistinctB].map (fun o => parseMs o.time)).Nodup) ∧
    generatePriceFromWeather [wDistinctB, wDistinctA] [] gbName =
      generatePriceFromWeather [wDistinctA, wDistinctB] [] gbName :=
  ⟨⟨by decide, by decide, by decide⟩,
   engine_order_independent [wDistinctB, wDistinctA] [wDistinctA, wDistinctB] [] gbName
     (by decide) (by decide) (by decide)⟩
